import Mathlib

/-!
Verification of the DapsiWow sitemap tooling (`sitemap_splitter.py` and
`generate_sitemaps.py`) against its natural-language specification.

The Python scripts are shallowly embedded: strings are `List Char` /
`String`, XML documents are lists of records, file I/O is modelled as the
list of file names a run writes, and the external input file is modelled
as an explicit source state (missing / malformed / parsed).
-/

namespace DapsiWow

/-! ## Basic character and string utilities -/

/-- Python `str.lower` restricted to ASCII: uppercase ASCII letters are
shifted by 32, every other character is unchanged.  The categorizer's
patterns and the generator's hrefs are ASCII, so this models the
behaviour of `.lower()` on the inputs that matter. -/
def pyLower (c : Char) : Char :=
  if 'A' ≤ c ∧ c ≤ 'Z' then Char.ofNat (c.toNat + 32) else c

/-- Lowercase every character of a string, as Python `str.lower` does. -/
def lowerChars (s : List Char) : List Char := s.map pyLower

/-- Fuel-driven worker for `removeAll`; the fuel is the length of the
string, which suffices because each step consumes at least one
character. -/
def removeAllAux (old : List Char) : Nat → List Char → List Char
  | _, [] => []
  | 0, s => s
  | fuel + 1, c :: rest =>
    if old ≠ [] ∧ old.isPrefixOf (c :: rest) then
      removeAllAux old fuel ((c :: rest).drop old.length)
    else
      c :: removeAllAux old fuel rest

/-- Python `s.replace(old, '')`: delete every non-overlapping occurrence
of `old` in `s`, scanning left to right. -/
def removeAll (old s : List Char) : List Char := removeAllAux old s.length s

/-! ## The regex subset used by `sitemap_splitter.py`

Every pattern in the splitter's configuration has the shape
`lit₁.*lit₂.*…*litₖ` optionally followed by `$`, where each `litᵢ` is a
newline-free literal.  Python `re.search` semantics for such a pattern:
the match may start anywhere; `.` matches any character except `'\n'`, so
each gap (and hence the whole match) stays inside one newline-delimited
line; `$` matches at the end of the string or just before a final
`'\n'`. -/

/-- A pattern `segs₁.*segs₂.*…` with an optional trailing `$` anchor. -/
structure Pat where
  segs : List String
  atEnd : Bool

/-- Drop everything up to and including the first occurrence of `seg`;
`none` if `seg` does not occur in `s`. -/
def dropAfterFirst (seg : List Char) : List Char → Option (List Char)
  | [] => if seg.isEmpty then some [] else none
  | c :: rest =>
    if seg.isPrefixOf (c :: rest) then some ((c :: rest).drop seg.length)
    else dropAfterFirst seg rest

/-- Do the literal segments occur in `s`, in order and without
overlapping?  Taking each first occurrence greedily is complete for this
existence question. -/
def containsInOrder : List (List Char) → List Char → Bool
  | [], _ => true
  | seg :: rest, s =>
    match dropAfterFirst seg s with
    | none => false
    | some s' => containsInOrder rest s'

/-- Split a character list on `'\n'`, keeping empty lines; always
non-empty. -/
def splitLines : List Char → List (List Char)
  | [] => [[]]
  | c :: rest =>
    if c = '\n' then [] :: splitLines rest
    else
      match splitLines rest with
      | [] => [[c]]
      | l :: ls => (c :: l) :: ls

/-- Remove one final `'\n'` if present (the position where Python's `$`
may also match). -/
def stripFinalNl (s : List Char) : List Char :=
  match s.getLast? with
  | some c => if c = '\n' then s.dropLast else s
  | none => s

/-- The maximal newline-free suffix of `s`. -/
def lastLine (s : List Char) : List Char := (splitLines s).getLastD []

/-- Python `re.search(pat, s)` for the pattern subset described above.
For an anchored pattern the match must end at the `$` position, so the
last segment is a suffix of the last line (after discarding one final
newline) and the earlier segments occur in order before it; for an
unanchored pattern the segments must occur in order inside some line. -/
def pySearch (p : Pat) (s : List Char) : Bool :=
  let segs := p.segs.map String.data
  if p.atEnd then
    let t := lastLine (stripFinalNl s)
    match segs.reverse.map List.reverse with
    | [] => true
    | r :: rs => r.isPrefixOf t.reverse && containsInOrder rs (t.reverse.drop r.length)
  else
    (splitLines s).any (fun line => containsInOrder segs line)

/-! ## The splitter's category configuration (`SitemapSplitter.__init__`) -/

/-- Unanchored single-literal pattern (e.g. `r'/about'`). -/
def u1 (a : String) : Pat := ⟨[a], false⟩

/-- Unanchored two-literal pattern `a.*b` (e.g. `r'loan.*calculator'`). -/
def u2 (a b : String) : Pat := ⟨[a, b], false⟩

/-- Unanchored three-literal pattern `a.*b.*c` (e.g. `r'pdf.*to.*image'`). -/
def u3 (a b c : String) : Pat := ⟨[a, b, c], false⟩

/-- End-anchored single-literal pattern `a$` (e.g. `r'/tools$'`). -/
def e1 (a : String) : Pat := ⟨[a], true⟩

/-- One category of the splitter configuration: its output file name and
its ordered pattern list. -/
structure CatData where
  file : String
  patterns : List Pat

/-- The `'main'` category of `self.categories`. -/
def mainCat : CatData :=
  ⟨"sitemap-main.xml",
   [e1 ("/"), u1 ("/about"), u1 ("/contact"), u1 ("/privacy"), u1 ("/terms"),
    u1 ("/help"), e1 ("/tools"), e1 ("/finance"), e1 ("/health"), e1 ("/text"),
    e1 ("/pdf")]⟩

/-- The `'finance'` category of `self.categories`. -/
def financeCat : CatData :=
  ⟨"sitemap-finance.xml",
   [u2 ("loan") ("calculator"), u2 ("mortgage") ("calculator"),
    u2 ("emi") ("calculator"), u2 ("compound") ("interest"),
    u2 ("simple") ("interest"), u2 ("roi") ("calculator"),
    u2 ("tax") ("calculator"), u2 ("salary") ("calculator"),
    u2 ("tip") ("calculator"), u2 ("inflation") ("calculator"),
    u2 ("savings") ("calculator"), u2 ("debt") ("calculator"),
    u2 ("investment") ("calculator"), u2 ("retirement") ("calculator"),
    u2 ("sip") ("calculator"), u2 ("break") ("even"),
    u2 ("business") ("loan"), u2 ("car") ("loan"), u2 ("home") ("loan"),
    u2 ("education") ("loan"), u2 ("credit") ("card"),
    u2 ("percentage") ("calculator"), u2 ("discount") ("calculator"),
    u2 ("vat") ("calculator"), u2 ("gst") ("calculator"),
    u2 ("paypal") ("fee"), u2 ("lease") ("calculator"),
    u2 ("stock") ("profit"), u2 ("net") ("worth")]⟩

/-- The `'health'` category of `self.categories`. -/
def healthCat : CatData :=
  ⟨"sitemap-health.xml",
   [u2 ("bmi") ("calculator"), u2 ("bmr") ("calculator"),
    u2 ("calorie") ("calculator"), u2 ("body") ("fat"),
    u2 ("ideal") ("weight"), u2 ("pregnancy") ("calculator"),
    u2 ("water") ("intake"), u2 ("protein") ("calculator"),
    u2 ("carb") ("calculator"), u2 ("keto") ("calculator"),
    u2 ("fasting") ("timer"), u2 ("step") ("calorie"),
    u2 ("heart") ("rate"), u2 ("blood") ("pressure"),
    u2 ("sleep") ("calculator"), u2 ("ovulation") ("calculator"),
    u2 ("baby") ("growth"), u2 ("tdee") ("calculator"),
    u2 ("lean") ("body"), u2 ("waist") ("ratio"),
    u2 ("whr") ("calculator"), u2 ("life") ("expectancy"),
    u2 ("cholesterol") ("calculator"), u2 ("running") ("pace"),
    u2 ("cycling") ("speed"), u2 ("swimming") ("calorie"),
    u2 ("alcohol") ("calorie"), u2 ("smoking") ("cost")]⟩

/-- The `'pdf'` category of `self.categories`. -/
def pdfCat : CatData :=
  ⟨"sitemap-pdf.xml",
   [u2 ("merge") ("pdf"), u2 ("split") ("pdf"), u2 ("compress") ("pdf"),
    u2 ("pdf") ("compress"), u2 ("pdf") ("merge"), u2 ("pdf") ("split"),
    u2 ("pdf") ("convert"), u2 ("convert") ("pdf"),
    u3 ("pdf") ("to") ("image"), u3 ("image") ("to") ("pdf"),
    u3 ("pdf") ("to") ("word"), u3 ("word") ("to") ("pdf"),
    u3 ("pdf") ("to") ("excel"), u3 ("excel") ("to") ("pdf"),
    u2 ("pdf") ("encrypt"), u2 ("encrypt") ("pdf"),
    u2 ("pdf") ("decrypt"), u2 ("decrypt") ("pdf"),
    u2 ("pdf") ("rotate"), u2 ("rotate") ("pdf"),
    u2 ("pdf") ("watermark"), u2 ("watermark") ("pdf"),
    u2 ("pdf") ("sign"), u2 ("sign") ("pdf"),
    u2 ("pdf") ("edit"), u2 ("edit") ("pdf")]⟩

/-- The `'text'` category of `self.categories`. -/
def textCat : CatData :=
  ⟨"sitemap-text.xml",
   [u2 ("word") ("counter"), u2 ("character") ("counter"),
    u2 ("sentence") ("counter"), u2 ("paragraph") ("counter"),
    u2 ("case") ("converter"), u2 ("password") ("generator"),
    u2 ("name") ("generator"), u2 ("username") ("generator"),
    u2 ("address") ("generator"), u2 ("qr") ("generator"),
    u2 ("font") ("changer"), u2 ("reverse") ("text"),
    u3 ("text") ("to") ("qr"), u3 ("qr") ("to") ("text"),
    u3 ("text") ("to") ("binary"), u3 ("binary") ("to") ("text"),
    u2 ("qr") ("scanner"), u3 ("markdown") ("to") ("html"),
    u3 ("html") ("to") ("markdown"), u2 ("lorem") ("ipsum"),
    u2 ("text") ("encrypt"), u2 ("text") ("decrypt"),
    u2 ("url") ("encoder"), u2 ("url") ("decoder"),
    u2 ("base64") ("encode"), u2 ("base64") ("decode")]⟩

/-- `self.categories`, in Python dict insertion order. -/
def categories : List (String × CatData) :=
  [("main", mainCat), ("finance", financeCat), ("health", healthCat),
   ("pdf", pdfCat), ("text", textCat)]

/-! ## `SitemapSplitter.categorize_url` -/

/-- `url.replace(self.base_url, '').lower()`. -/
def extractPath (base_url url : String) : List Char :=
  lowerChars (removeAll base_url.data url.data)

/-- Does some pattern of the category match the path (inner loop of
`categorize_url`)? -/
def catMatches (d : CatData) (path : List Char) : Bool :=
  d.patterns.any (fun p => pySearch p path)

/-- The first loop of `categorize_url`: scan the categories in configured
order, skipping `'main'`, and return the first whose pattern list
matches. -/
def firstNonMain : List (String × CatData) → List Char → Option String
  | [], _ => none
  | (n, d) :: rest, path =>
    if n = "main" then firstNonMain rest path
    else if catMatches d path then some n
    else firstNonMain rest path

/-- `SitemapSplitter.categorize_url`: try every non-`'main'` category in
order, then `'main'`'s own patterns, then default to `'main'`. -/
def categorize_url (base_url url : String) : String :=
  let path := extractPath base_url url
  match firstNonMain categories path with
  | some c => c
  | none =>
    match List.lookup ("main") categories with
    | some d => if catMatches d path then "main" else "main"
    | none => "main"

/-- Does the named category's pattern list match the path? -/
def matchesCategory (c : String) (path : List Char) : Bool :=
  match List.lookup c categories with
  | some d => catMatches d path
  | none => false

/-- The configured non-fallback category names, in configured order. -/
def nonMainNames : List String :=
  (categories.filter (fun p => p.1 ≠ ("main"))).map Prod.fst

/-! ## The splitter pipeline (`SitemapSplitter`)

A URL record is the `(url, lastmod, changefreq, priority)` tuple used
throughout `sitemap_splitter.py`. -/

/-- One `(url, lastmod, changefreq, priority)` tuple. -/
structure UrlTuple where
  url : String
  lastmod : String
  changefreq : String
  priority : String
deriving DecidableEq

/-- One `<url>` element of an in-memory sitemap document: each child
holds `some text` when present. `create_sitemap_xml` always sets all
four. -/
structure UrlEntry where
  loc : Option String
  lastmod : Option String
  changefreq : Option String
  priority : Option String
deriving DecidableEq

/-- `SitemapSplitter.create_sitemap_xml` (document contents): one `<url>`
element per tuple, with `<loc>`, `<lastmod>`, `<changefreq>`,
`<priority>` children in that order. -/
def create_sitemap_doc (urls : List UrlTuple) : List UrlEntry :=
  urls.map (fun t => ⟨some t.url, some t.lastmod, some t.changefreq, some t.priority⟩)

/-- The extraction loop of `SitemapSplitter.parse_existing_sitemap`: for
each `<url>` element with a `<loc>` child, collect the tuple, defaulting
a missing `<lastmod>` to the current date, `<changefreq>` to
`"weekly"` and `<priority>` to `"0.8"`. -/
def parse_sitemap_doc (doc : List UrlEntry) (current_date : String) : List UrlTuple :=
  doc.filterMap (fun e =>
    e.loc.map (fun u =>
      ⟨u, e.lastmod.getD current_date, e.changefreq.getD ("weekly"),
       e.priority.getD ("0.8")⟩))

/-- `SitemapSplitter.create_example_urls`. -/
def create_example_urls (base date : String) : List UrlTuple :=
  [⟨base ++ "/", date, "daily", "1.0"⟩,
   ⟨base ++ "/about", date, "monthly", "0.8"⟩,
   ⟨base ++ "/contact", date, "monthly", "0.8"⟩,
   ⟨base ++ "/privacy", date, "yearly", "0.5"⟩,
   ⟨base ++ "/terms", date, "yearly", "0.5"⟩,
   ⟨base ++ "/help", date, "monthly", "0.7"⟩,
   ⟨base ++ "/tools", date, "weekly", "0.9"⟩,
   ⟨base ++ "/tools/loan-calculator", date, "weekly", "0.8"⟩,
   ⟨base ++ "/tools/mortgage-calculator", date, "weekly", "0.8"⟩,
   ⟨base ++ "/tools/emi-calculator", date, "weekly", "0.8"⟩,
   ⟨base ++ "/tools/compound-interest-calculator", date, "weekly", "0.8"⟩,
   ⟨base ++ "/tools/tax-calculator", date, "weekly", "0.8"⟩,
   ⟨base ++ "/tools/paypal-fee-calculator", date, "weekly", "0.8"⟩,
   ⟨base ++ "/tools/bmi-calculator", date, "weekly", "0.8"⟩,
   ⟨base ++ "/tools/bmr-calculator", date, "weekly", "0.8"⟩,
   ⟨base ++ "/tools/calorie-calculator", date, "weekly", "0.8"⟩,
   ⟨base ++ "/tools/body-fat-calculator", date, "weekly", "0.8"⟩,
   ⟨base ++ "/tools/word-counter", date, "weekly", "0.8"⟩,
   ⟨base ++ "/tools/character-counter", date, "weekly", "0.8"⟩,
   ⟨base ++ "/tools/case-converter", date, "weekly", "0.8"⟩,
   ⟨base ++ "/tools/password-generator", date, "weekly", "0.8"⟩,
   ⟨base ++ "/tools/merge-pdf", date, "weekly", "0.8"⟩,
   ⟨base ++ "/tools/split-pdf", date, "weekly", "0.8"⟩,
   ⟨base ++ "/tools/compress-pdf", date, "weekly", "0.8"⟩]

/-- The state of the splitter's input file: absent, present but
unparseable XML (`ET.ParseError`), or parsed into `<url>` elements. -/
inductive SitemapSource where
  | missing : SitemapSource
  | malformed : SitemapSource
  | parsed : List UrlEntry → SitemapSource

/-- `SitemapSplitter.parse_existing_sitemap`: a missing file and a parse
error both fall back to the example dataset; otherwise the document's
`<url>` elements are extracted. -/
def parse_existing_sitemap (base date : String) : SitemapSource → List UrlTuple
  | .missing => create_example_urls base date
  | .malformed => create_example_urls base date
  | .parsed doc => parse_sitemap_doc doc date

/-- The per-category grouping of `split_sitemap`: tuples are appended to
their category's list in input order, i.e. each group is a filter of the
input. -/
def categorizedUrls (base : String) (urls : List UrlTuple) (cat : String) : List UrlTuple :=
  urls.filter (fun t => categorize_url base t.url = cat)

/-- The files `SitemapSplitter.split_sitemap` writes, in order: nothing
when the input is empty; otherwise one file per category with a
non-empty group, then the `sitemap.xml` index. -/
def split_sitemap_files (base : String) (urls : List UrlTuple) : List String :=
  if urls = [] then []
  else
    (categories.filterMap (fun p =>
      if categorizedUrls base urls p.1 = [] then none else some p.2.file))
    ++ ["sitemap.xml"]

/-- `SitemapSplitter.create_sitemap_index` contents: one
`(loc, lastmod)` entry per configured category, in configuration order,
independent of the run's data. -/
def splitter_index_entries (base date : String) : List (String × String) :=
  categories.map (fun p => (base ++ "/" ++ p.2.file, date))

/-- A whole splitter run from a source state, returning the files
written. -/
def split_run_files (base date : String) (src : SitemapSource) : List String :=
  split_sitemap_files base (parse_existing_sitemap base date src)

/-! ## The catalogue-driven generator (`generate_sitemaps.py`) -/

/-- One record of the tools catalogue, as matched by
`parse_tools_from_ts`. -/
structure Tool where
  id : String
  name : String
  description : String
  category : String
  href : String
  url : String
deriving DecidableEq

/-- Python `s.replace('//', '/')`: one left-to-right pass replacing each
non-overlapping pair of slashes by one slash (so a run of `n` slashes
becomes `⌈n/2⌉` slashes, not one). -/
def collapsePairs : List Char → List Char
  | [] => []
  | [c] => [c]
  | c :: d :: rest =>
    if c = '/' ∧ d = '/' then '/' :: collapsePairs rest
    else c :: collapsePairs (d :: rest)

/-- Python `s.rstrip('/')`: remove every trailing slash. -/
def rstripSlashes (s : List Char) : List Char :=
  (s.reverse.dropWhile (fun c => c = '/')).reverse

/-- Does the string start with `'/tools/'` (case-sensitively)? -/
def startsWithTools (s : List Char) : Bool :=
  List.isPrefixOf ("/tools/".data) s

/-- The href normalizer inside `parse_tools_from_ts`: first synthesize
`'/tools/<id>'` when the raw href does not start with `'/tools/'`, then
`href.lower().replace('//', '/').rstrip('/')`. -/
def normalize_href (href tool_id : String) : String :=
  let h := if startsWithTools href.data then href.data else ("/tools/" ++ tool_id).data
  ⟨rstripSlashes (collapsePairs (lowerChars h))⟩

/-- Just the `href.lower().replace('//', '/').rstrip('/')` pass (the
normalization rules C4 quantifies over). -/
def normalize_pass (s : String) : String :=
  ⟨rstripSlashes (collapsePairs (lowerChars s.data))⟩

/-- The dict keys of `group_tools_by_category` in first-occurrence
order, tracking the keys already seen. -/
def orderedKeysAux (seen : List String) : List String → List String
  | [] => []
  | c :: rest =>
    if c ∈ seen then orderedKeysAux seen rest
    else c :: orderedKeysAux (c :: seen) rest

/-- The category keys of the grouping dict, in first-occurrence order
(Python dict insertion order). -/
def orderedKeys (l : List String) : List String := orderedKeysAux [] l

/-- Name order on tools, used by `group_tools_by_category`'s
`sort(key=lambda x: x['name'])`. -/
def nameLe (a b : Tool) : Prop := a.name ≤ b.name

instance : DecidableRel nameLe := fun a b => inferInstanceAs (Decidable (a.name ≤ b.name))

instance : IsTotal Tool nameLe := ⟨fun a b => le_total a.name b.name⟩

instance : IsTrans Tool nameLe := ⟨fun _ _ _ h1 h2 => le_trans h1 h2⟩

/-- One group of `group_tools_by_category`: the tools with the given
category, in input order, then stably sorted by name. -/
def group_get (tools : List Tool) (cat : String) : List Tool :=
  List.insertionSort nameLe (tools.filter (fun t => t.category = cat))

/-- Python `sorted` on strings (lexicographic). -/
def sortStrings (l : List String) : List String :=
  List.insertionSort (fun a b => a ≤ b) l

/-- `ToolsSitemapGenerator.create_sitemap_xml` (document contents): every
`<url>` entry carries the tool's absolute URL, the run's date,
`'weekly'` and `'0.8'`. -/
def create_tool_sitemap_doc (date : String) (tools : List Tool) : List UrlEntry :=
  tools.map (fun t => ⟨some t.url, some date, some ("weekly"), some ("0.8")⟩)

/-- `ToolsSitemapGenerator.create_sitemap_index` contents: the main
sitemap entry first, then one entry per category in `sorted` order. -/
def create_sitemap_index_entries (base date : String) (cats : List String) :
    List (String × String) :=
  (base ++ "/sitemap-main.xml", date) ::
    (sortStrings cats).map (fun c => (base ++ "/sitemap-" ++ c ++ ".xml", date))

/-- The files `ToolsSitemapGenerator.generate_sitemaps` writes, in
order: nothing when the parsed catalogue is empty; otherwise one file
per non-empty category group (dict order), then `sitemap-main.xml`, then
the `sitemap.xml` index. -/
def generate_sitemaps_files (tools : List Tool) : List String :=
  if tools = [] then []
  else
    ((orderedKeys (tools.map (fun t => t.category))).filterMap (fun c =>
      if group_get tools c = [] then none else some ("sitemap-" ++ c ++ ".xml")))
    ++ ["sitemap-main.xml", "sitemap.xml"]

/-- The index the generator writes for a run:
`create_sitemap_index(list(categorized_tools.keys()))`. -/
def generate_index (base date : String) (tools : List Tool) : List (String × String) :=
  create_sitemap_index_entries base date (orderedKeys (tools.map (fun t => t.category)))

/-! ## The normalizer as the specification words it

These definitions follow the spec's description of the URL normalizer,
to be compared with `normalize_href` above (which follows the code). -/

/-- Collapse every maximal run of consecutive slashes into a single
slash, as the spec describes; the flag records whether the previous
character was a slash. -/
def collapseRunsAux (prevSlash : Bool) : List Char → List Char
  | [] => []
  | c :: rest =>
    if c = '/' then
      if prevSlash then collapseRunsAux true rest
      else '/' :: collapseRunsAux true rest
    else c :: collapseRunsAux false rest

/-- Collapse each run of consecutive slashes to one slash. -/
def collapseRuns (s : List Char) : List Char := collapseRunsAux false s

/-- Strip a single trailing slash unless the path is exactly the root
`"/"`, as the spec describes. -/
def stripOneTrailing (s : List Char) : List Char :=
  if s = ['/'] then s
  else if s.getLast? = some '/' then s.dropLast else s

/-- The normalizer exactly as the claim describes it: lowercase, collapse
every slash run to one slash, strip one trailing slash unless root, and
only then synthesize `'/tools/<id>'` when the result does not begin with
the tool prefix. -/
def normalize_claimed (href tool_id : String) : String :=
  let h1 := lowerChars href.data
  let h2 := collapseRuns h1
  let h3 := stripOneTrailing h2
  ⟨if startsWithTools h3 then h3 else ("/tools/" ++ tool_id).data⟩

/-- Replace each non-overlapping pair of slashes by one slash in a
single left-to-right pass, tracking whether an unpaired slash is
pending; a run of `n` slashes becomes `⌈n/2⌉` slashes. -/
def halveRunsAux (pending : Bool) : List Char → List Char
  | [] => if pending then ['/'] else []
  | c :: rest =>
    if c = '/' then
      if pending then '/' :: halveRunsAux false rest
      else halveRunsAux true rest
    else
      (if pending then ['/', c] else [c]) ++ halveRunsAux false rest

/-- Remove every trailing slash (right-recursive formulation). -/
def stripTrailingSlashes : List Char → List Char
  | [] => []
  | c :: rest =>
    match stripTrailingSlashes rest with
    | [] => if c = '/' then [] else [c]
    | r => c :: r

/-- The normalizer as the amended claim describes it: synthesize
`'/tools/<id>'` first when the raw href does not start (case-sensitively)
with `'/tools/'`; then lowercase; then halve each slash run in one
pairwise pass; then strip all trailing slashes. -/
def normalize_amended (href tool_id : String) : String :=
  let h0 := if startsWithTools href.data then href.data else ("/tools/" ++ tool_id).data
  ⟨stripTrailingSlashes (halveRunsAux false (lowerChars h0))⟩

/-- Does the string contain three consecutive slashes? -/
def hasTriple : List Char → Bool
  | c :: d :: e :: rest =>
    (decide (c = '/') && decide (d = '/') && decide (e = '/')) || hasTriple (d :: e :: rest)
  | _ => false

/-- Does the string contain two consecutive slashes? -/
def hasDouble : List Char → Bool
  | c :: d :: rest => (decide (c = '/') && decide (d = '/')) || hasDouble (d :: rest)
  | _ => false

/-! ## Theorems -/

/-- A category returned by the first scan is one of the scanned
categories' names. -/
lemma firstNonMain_mem {cats : List (String × CatData)} {path : List Char} {c : String}
    (h : firstNonMain cats path = some c) : c ∈ cats.map Prod.fst := by
  induction cats with
  | nil => simp [firstNonMain] at h
  | cons hd tl ih =>
    obtain ⟨n, d⟩ := hd
    have hd2 : firstNonMain ((n, d) :: tl) path
        = if n = "main" then firstNonMain tl path
          else if catMatches d path then some n else firstNonMain tl path := rfl
    rw [hd2] at h
    split_ifs at h with h1 h2
    · exact List.mem_cons_of_mem _ (ih h)
    · injection h with h
      exact h ▸ List.mem_cons_self _ _
    · exact List.mem_cons_of_mem _ (ih h)

/-- `categorize_url` returns the first matching non-fallback category,
falling back to `"main"`. -/
lemma categorize_url_eq (base_url url : String) :
    categorize_url base_url url
      = (firstNonMain categories (extractPath base_url url)).getD ("main") := by
  show (match firstNonMain categories (extractPath base_url url) with
        | some c => c
        | none =>
          match List.lookup ("main") categories with
          | some d => if catMatches d (extractPath base_url url) then "main" else "main"
          | none => "main")
      = (firstNonMain categories (extractPath base_url url)).getD ("main")
  cases h : firstNonMain categories (extractPath base_url url) with
  | some c => simp
  | none =>
    have hl : List.lookup ("main") categories = some mainCat := rfl
    simp [hl]

/-- C1: for every input URL, `categorize_url` is total and
deterministic: it returns the first non-fallback category (in configured
order, patterns in configured order) whose pattern matches the extracted
path, and `"main"` otherwise — whether or not the fallback's own
patterns match — so the result is always exactly one of the configured
category names. -/
theorem categorize_url_total (base_url url : String) :
    categorize_url base_url url ∈ categories.map Prod.fst ∧
    categorize_url base_url url
      = (firstNonMain categories (extractPath base_url url)).getD ("main") := by
  refine ⟨?_, categorize_url_eq base_url url⟩
  rw [categorize_url_eq]
  cases h : firstNonMain categories (extractPath base_url url) with
  | some c => simpa using firstNonMain_mem h
  | none => simp [categories]

/-- C2: when the extracted path matches patterns of two different
non-fallback categories, `categorize_url` never returns the one declared
later in the configured order; in particular the URL whose path contains
`merge-pdf` is categorized `'pdf'`. -/
theorem categorize_url_priority (b u c1 c2 : String)
    (h1 : matchesCategory c1 (extractPath b u) = true)
    (h2 : matchesCategory c2 (extractPath b u) = true)
    (hmem : c2 ∈ nonMainNames)
    (hlt : nonMainNames.indexOf c1 < nonMainNames.indexOf c2) :
    categorize_url b u ≠ c2 ∧
    categorize_url ("https://dapsiwow.com") ("https://dapsiwow.com/tools/merge-pdf")
      = ("pdf") := by
  refine ⟨?_, by decide⟩
  have hc1m : c1 ∈ nonMainNames :=
    List.indexOf_lt_length.mp (lt_of_lt_of_le hlt List.indexOf_le_length)
  rw [categorize_url_eq]
  have hfm : firstNonMain categories (extractPath b u)
      = if catMatches financeCat (extractPath b u) then some ("finance")
        else if catMatches healthCat (extractPath b u) then some ("health")
        else if catMatches pdfCat (extractPath b u) then some ("pdf")
        else if catMatches textCat (extractPath b u) then some ("text")
        else none := rfl
  have lf : List.lookup ("finance") categories = some financeCat := rfl
  have lh : List.lookup ("health") categories = some healthCat := rfl
  have lp : List.lookup ("pdf") categories = some pdfCat := rfl
  have lt2 : List.lookup ("text") categories = some textCat := rfl
  have hnn : nonMainNames = ["finance", "health", "pdf", "text"] := rfl
  rw [hnn] at hc1m hmem hlt
  fin_cases hc1m <;> fin_cases hmem <;>
    first
      | exact absurd hlt (by decide)
      | (simp only [matchesCategory, lf, lh, lp, lt2] at h1
         rw [hfm]
         cases hf : catMatches financeCat (extractPath b u) <;>
         cases hh : catMatches healthCat (extractPath b u) <;>
         cases hp : catMatches pdfCat (extractPath b u) <;>
         cases ht : catMatches textCat (extractPath b u) <;>
         simp_all)

/-- Instantiation of `categorize_url_priority`: the path
`/tools/pdf-edit-text-encrypt` matches both the `'pdf'` and the `'text'`
category, and resolves away from the later-declared `'text'`. -/
theorem categorize_url_priority_witness :
    categorize_url ("https://dapsiwow.com")
        ("https://dapsiwow.com/tools/pdf-edit-text-encrypt") ≠ ("text") ∧
    categorize_url ("https://dapsiwow.com") ("https://dapsiwow.com/tools/merge-pdf")
      = ("pdf") :=
  categorize_url_priority ("https://dapsiwow.com")
    ("https://dapsiwow.com/tools/pdf-edit-text-encrypt") ("pdf") ("text")
    (by decide) (by decide) (by decide) (by decide)

/-- C9: building a sitemap document from a list of tuples and parsing it
back yields exactly the tuples that were used to build it. -/
theorem sitemap_roundtrip (urls : List UrlTuple) (date : String) :
    parse_sitemap_doc (create_sitemap_doc urls) date = urls := by
  induction urls with
  | nil => rfl
  | cons t rest ih =>
    simpa [create_sitemap_doc, parse_sitemap_doc] using ih

/-- C10: every `<url>` entry the catalogue-driven generator emits into a
category sitemap carries the run's date, `'weekly'` and `'0.8'`,
independent of the tool's metadata. -/
theorem tool_entry_constant_fields (date : String) (tools : List Tool) (c : String)
    (e : UrlEntry) (he : e ∈ create_tool_sitemap_doc date (group_get tools c)) :
    e.lastmod = some date ∧ e.changefreq = some ("weekly") ∧
    e.priority = some ("0.8") ∧ ∃ t ∈ group_get tools c, e.loc = some t.url := by
  rcases List.mem_map.mp he with ⟨t, ht, rfl⟩
  exact ⟨rfl, rfl, rfl, t, ht, rfl⟩

/-- Instantiation of `tool_entry_constant_fields` at a concrete tool. -/
theorem tool_entry_constant_fields_witness :
    (⟨some ("https://dapsiwow.com/tools/bmi-calculator"), some ("2025-01-01"),
      some ("weekly"), some ("0.8")⟩ : UrlEntry).lastmod = some ("2025-01-01") ∧
    (⟨some ("https://dapsiwow.com/tools/bmi-calculator"), some ("2025-01-01"),
      some ("weekly"), some ("0.8")⟩ : UrlEntry).changefreq = some ("weekly") ∧
    (⟨some ("https://dapsiwow.com/tools/bmi-calculator"), some ("2025-01-01"),
      some ("weekly"), some ("0.8")⟩ : UrlEntry).priority = some ("0.8") ∧
    ∃ t ∈ group_get
        [⟨"bmi-calculator", "BMI Calculator", "d", "health",
          "/tools/bmi-calculator", "https://dapsiwow.com/tools/bmi-calculator"⟩]
        ("health"),
      (⟨some ("https://dapsiwow.com/tools/bmi-calculator"), some ("2025-01-01"),
        some ("weekly"), some ("0.8")⟩ : UrlEntry).loc = some t.url :=
  tool_entry_constant_fields ("2025-01-01")
    [⟨"bmi-calculator", "BMI Calculator", "d", "health",
      "/tools/bmi-calculator", "https://dapsiwow.com/tools/bmi-calculator"⟩]
    ("health") _ (by decide)

/-- C7 (amended): on an empty record collection both scripts write no
files at all — no category sitemaps, no main sitemap, no index. -/
theorem empty_input_no_files (base : String) :
    generate_sitemaps_files [] = [] ∧ split_sitemap_files base [] = [] :=
  ⟨rfl, rfl⟩

/-- C7 counterexample: on empty input the generator does not produce the
main sitemap or the index (it writes nothing), contradicting the claim
that they are still produced. -/
theorem empty_input_cex :
    ("sitemap-main.xml" ∉ generate_sitemaps_files []) ∧
    ("sitemap.xml" ∉ generate_sitemaps_files []) ∧
    split_sitemap_files ("https://dapsiwow.com") [] = [] := by
  decide

/-- C8: a malformed (unparseable) input document makes the splitter fall
back to the built-in example dataset instead of crashing, and the run
still completes, producing all five category sitemaps plus the index
from the example URLs. -/
theorem malformed_falls_back (base date : String) :
    parse_existing_sitemap base date .malformed = create_example_urls base date ∧
    split_run_files ("https://dapsiwow.com") ("2025-01-01") .malformed =
      ["sitemap-main.xml", "sitemap-finance.xml", "sitemap-health.xml",
       "sitemap-pdf.xml", "sitemap-text.xml", "sitemap.xml"] :=
  ⟨rfl, by decide⟩

/-- C5 counterexample: a splitter run whose only URL is categorized
`'main'` writes no finance sitemap, yet the splitter's index still
contains the finance entry. -/
theorem splitter_index_cex :
    ("sitemap-finance.xml" ∉
      split_sitemap_files ("https://dapsiwow.com")
        [⟨"https://dapsiwow.com/about", "2025-01-01", "monthly", "0.8"⟩]) ∧
    ("https://dapsiwow.com/sitemap-finance.xml", "2025-01-01") ∈
      splitter_index_entries ("https://dapsiwow.com") ("2025-01-01") := by
  decide

/-- C6 counterexample: the splitter emits each group in input order, so
permuting the input changes the emitted `'main'` document. -/
theorem splitter_order_cex :
    ([⟨"https://dapsiwow.com/about", "d", "monthly", "0.8"⟩,
      ⟨"https://dapsiwow.com/contact", "d", "monthly", "0.8"⟩] : List UrlTuple).Perm
      [⟨"https://dapsiwow.com/contact", "d", "monthly", "0.8"⟩,
       ⟨"https://dapsiwow.com/about", "d", "monthly", "0.8"⟩] ∧
    create_sitemap_doc (categorizedUrls ("https://dapsiwow.com")
        [⟨"https://dapsiwow.com/about", "d", "monthly", "0.8"⟩,
         ⟨"https://dapsiwow.com/contact", "d", "monthly", "0.8"⟩] ("main")) ≠
      create_sitemap_doc (categorizedUrls ("https://dapsiwow.com")
        [⟨"https://dapsiwow.com/contact", "d", "monthly", "0.8"⟩,
         ⟨"https://dapsiwow.com/about", "d", "monthly", "0.8"⟩] ("main")) := by
  constructor
  · exact List.Perm.swap _ _ _
  · decide

/-- Keys produced by `orderedKeysAux` avoid the already-seen keys. -/
lemma orderedKeysAux_not_seen : ∀ (l : List String) (seen : List String),
    ∀ x ∈ orderedKeysAux seen l, x ∉ seen := by
  intro l
  induction l with
  | nil => intro seen x hx; simp [orderedKeysAux] at hx
  | cons c rest ih =>
    intro seen x hx
    by_cases hc : c ∈ seen
    · rw [show orderedKeysAux seen (c :: rest) = orderedKeysAux seen rest from by
        simp [orderedKeysAux, hc]] at hx
      exact ih seen x hx
    · rw [show orderedKeysAux seen (c :: rest) = c :: orderedKeysAux (c :: seen) rest from by
        simp [orderedKeysAux, hc]] at hx
      rcases List.mem_cons.mp hx with rfl | hx
      · exact hc
      · intro hxs
        exact ih (c :: seen) x hx (List.mem_cons_of_mem _ hxs)

/-- The key list of the grouping dict has no duplicates. -/
lemma orderedKeysAux_nodup : ∀ (l : List String) (seen : List String),
    (orderedKeysAux seen l).Nodup := by
  intro l
  induction l with
  | nil => intro seen; simp [orderedKeysAux]
  | cons c rest ih =>
    intro seen
    by_cases hc : c ∈ seen
    · simpa [orderedKeysAux, hc] using ih seen
    · rw [show orderedKeysAux seen (c :: rest) = c :: orderedKeysAux (c :: seen) rest from by
        simp [orderedKeysAux, hc]]
      refine List.nodup_cons.mpr ⟨?_, ih (c :: seen)⟩
      intro hmem
      exact orderedKeysAux_not_seen rest (c :: seen) c hmem (List.mem_cons_self _ _)

/-- Every produced key occurs in the input list. -/
lemma orderedKeysAux_subset : ∀ (l : List String) (seen : List String),
    ∀ x ∈ orderedKeysAux seen l, x ∈ l := by
  intro l
  induction l with
  | nil => intro seen x hx; simp [orderedKeysAux] at hx
  | cons c rest ih =>
    intro seen x hx
    by_cases hc : c ∈ seen
    · rw [show orderedKeysAux seen (c :: rest) = orderedKeysAux seen rest from by
        simp [orderedKeysAux, hc]] at hx
      exact List.mem_cons_of_mem _ (ih seen x hx)
    · rw [show orderedKeysAux seen (c :: rest) = c :: orderedKeysAux (c :: seen) rest from by
        simp [orderedKeysAux, hc]] at hx
      rcases List.mem_cons.mp hx with rfl | hx
      · exact List.mem_cons_self _ _
      · exact List.mem_cons_of_mem _ (ih (c :: seen) x hx)

/-- The grouping dict's key list has no duplicates. -/
lemma orderedKeys_nodup (l : List String) : (orderedKeys l).Nodup :=
  orderedKeysAux_nodup l []

/-- Every grouping key is a category of some input record. -/
lemma orderedKeys_subset {l : List String} : ∀ x ∈ orderedKeys l, x ∈ l :=
  orderedKeysAux_subset l []

/-- A category that occurs among the tools has a non-empty group. -/
lemma group_get_ne_nil {tools : List Tool} {c : String}
    (h : c ∈ tools.map (fun t => t.category)) : group_get tools c ≠ [] := by
  rcases List.mem_map.mp h with ⟨t, ht, rfl⟩
  have hmem : t ∈ tools.filter (fun t' => t'.category = t.category) :=
    List.mem_filter.mpr ⟨ht, by simp⟩
  intro hnil
  have hfil : tools.filter (fun t' => t'.category = t.category) = [] := by
    have hp := List.perm_insertionSort nameLe
      (tools.filter (fun t' => t'.category = t.category))
    rw [group_get] at hnil
    rw [hnil] at hp
    exact hp.symm.eq_nil
  rw [hfil] at hmem
  simp at hmem

/-- When every key has a non-empty group the emptiness filter is the
identity and one file is produced per key. -/
lemma filterMap_group_files (tools : List Tool) :
    ∀ (keys : List String), (∀ c ∈ keys, group_get tools c ≠ []) →
    keys.filterMap (fun c =>
      if group_get tools c = [] then none else some ("sitemap-" ++ c ++ ".xml"))
      = keys.map (fun c => "sitemap-" ++ c ++ ".xml") := by
  intro keys h
  induction keys with
  | nil => rfl
  | cons a t ih =>
    rw [List.filterMap_cons, if_neg (h a (List.mem_cons_self _ _))]
    rw [ih (fun c hc => h c (List.mem_cons_of_mem _ hc))]
    rfl

/-- C5 (amended): the catalogue generator's index lists the main sitemap
first and then exactly one entry per produced category file, in
alphabetical order, each stamped with the run date; the splitter's index
instead always lists all five configured category files in configuration
order, regardless of which files its run produced. -/
theorem sitemap_index_contents (base date : String) (tools : List Tool)
    (h : tools ≠ []) :
    (generate_index base date tools).head?
      = some (base ++ "/sitemap-main.xml", date) ∧
    ((generate_index base date tools).tail.map Prod.fst)
      = (sortStrings (orderedKeys (tools.map (fun t => t.category)))).map
          (fun c => base ++ "/sitemap-" ++ c ++ ".xml") ∧
    List.Sorted (fun a b => a ≤ b)
      (sortStrings (orderedKeys (tools.map (fun t => t.category)))) ∧
    (sortStrings (orderedKeys (tools.map (fun t => t.category)))).Nodup ∧
    (sortStrings (orderedKeys (tools.map (fun t => t.category)))).Perm
      (orderedKeys (tools.map (fun t => t.category))) ∧
    generate_sitemaps_files tools
      = (orderedKeys (tools.map (fun t => t.category))).map
          (fun c => "sitemap-" ++ c ++ ".xml") ++ ["sitemap-main.xml", "sitemap.xml"] ∧
    (∀ e ∈ generate_index base date tools, e.2 = date) ∧
    splitter_index_entries base date
      = [(base ++ "/" ++ "sitemap-main.xml", date),
         (base ++ "/" ++ "sitemap-finance.xml", date),
         (base ++ "/" ++ "sitemap-health.xml", date),
         (base ++ "/" ++ "sitemap-pdf.xml", date),
         (base ++ "/" ++ "sitemap-text.xml", date)] := by
  refine ⟨rfl, ?_, List.sorted_insertionSort _ _, ?_, List.perm_insertionSort _ _,
    ?_, ?_, rfl⟩
  · simp [generate_index, create_sitemap_index_entries, List.map_map]
  · exact ((List.perm_insertionSort _ _).nodup_iff).mpr (orderedKeys_nodup _)
  · rw [generate_sitemaps_files, if_neg h]
    rw [filterMap_group_files tools (orderedKeys (tools.map (fun t => t.category)))
      (fun c hc => group_get_ne_nil (orderedKeys_subset c hc))]
  · intro e he
    rcases List.mem_cons.mp he with rfl | he
    · rfl
    · rcases List.mem_map.mp he with ⟨cc, _, rfl⟩
      rfl

/-- Instantiation of `sitemap_index_contents` at the spec's two-tool
scenario (one health tool, one finance tool). -/
theorem sitemap_index_contents_witness :
    (generate_index ("https://dapsiwow.com") ("2025-01-01")
        [⟨"bmi-calculator", "BMI Calculator", "d", "health",
          "/tools/bmi-calculator", "https://dapsiwow.com/tools/bmi-calculator"⟩,
         ⟨"loan-calculator", "Loan Calculator", "d", "finance",
          "/tools/loan-calculator", "https://dapsiwow.com/tools/loan-calculator"⟩]).head?
      = some ("https://dapsiwow.com" ++ "/sitemap-main.xml", "2025-01-01") ∧
    ((generate_index ("https://dapsiwow.com") ("2025-01-01")
        [⟨"bmi-calculator", "BMI Calculator", "d", "health",
          "/tools/bmi-calculator", "https://dapsiwow.com/tools/bmi-calculator"⟩,
         ⟨"loan-calculator", "Loan Calculator", "d", "finance",
          "/tools/loan-calculator", "https://dapsiwow.com/tools/loan-calculator"⟩]).tail.map
        Prod.fst)
      = (sortStrings (orderedKeys (List.map (fun t : Tool => t.category)
          [⟨"bmi-calculator", "BMI Calculator", "d", "health",
            "/tools/bmi-calculator", "https://dapsiwow.com/tools/bmi-calculator"⟩,
           ⟨"loan-calculator", "Loan Calculator", "d", "finance",
            "/tools/loan-calculator", "https://dapsiwow.com/tools/loan-calculator"⟩]))).map
          (fun c => "https://dapsiwow.com" ++ "/sitemap-" ++ c ++ ".xml") ∧
    List.Sorted (fun a b => a ≤ b)
      (sortStrings (orderedKeys (List.map (fun t : Tool => t.category)
        [⟨"bmi-calculator", "BMI Calculator", "d", "health",
          "/tools/bmi-calculator", "https://dapsiwow.com/tools/bmi-calculator"⟩,
         ⟨"loan-calculator", "Loan Calculator", "d", "finance",
          "/tools/loan-calculator", "https://dapsiwow.com/tools/loan-calculator"⟩]))) ∧
    (sortStrings (orderedKeys (List.map (fun t : Tool => t.category)
        [⟨"bmi-calculator", "BMI Calculator", "d", "health",
          "/tools/bmi-calculator", "https://dapsiwow.com/tools/bmi-calculator"⟩,
         ⟨"loan-calculator", "Loan Calculator", "d", "finance",
          "/tools/loan-calculator", "https://dapsiwow.com/tools/loan-calculator"⟩]))).Nodup ∧
    (sortStrings (orderedKeys (List.map (fun t : Tool => t.category)
        [⟨"bmi-calculator", "BMI Calculator", "d", "health",
          "/tools/bmi-calculator", "https://dapsiwow.com/tools/bmi-calculator"⟩,
         ⟨"loan-calculator", "Loan Calculator", "d", "finance",
          "/tools/loan-calculator", "https://dapsiwow.com/tools/loan-calculator"⟩]))).Perm
      (orderedKeys (List.map (fun t : Tool => t.category)
        [⟨"bmi-calculator", "BMI Calculator", "d", "health",
          "/tools/bmi-calculator", "https://dapsiwow.com/tools/bmi-calculator"⟩,
         ⟨"loan-calculator", "Loan Calculator", "d", "finance",
          "/tools/loan-calculator", "https://dapsiwow.com/tools/loan-calculator"⟩])) ∧
    generate_sitemaps_files
        [⟨"bmi-calculator", "BMI Calculator", "d", "health",
          "/tools/bmi-calculator", "https://dapsiwow.com/tools/bmi-calculator"⟩,
         ⟨"loan-calculator", "Loan Calculator", "d", "finance",
          "/tools/loan-calculator", "https://dapsiwow.com/tools/loan-calculator"⟩]
      = (orderedKeys (List.map (fun t : Tool => t.category)
          [⟨"bmi-calculator", "BMI Calculator", "d", "health",
            "/tools/bmi-calculator", "https://dapsiwow.com/tools/bmi-calculator"⟩,
           ⟨"loan-calculator", "Loan Calculator", "d", "finance",
            "/tools/loan-calculator", "https://dapsiwow.com/tools/loan-calculator"⟩])).map
          (fun c => "sitemap-" ++ c ++ ".xml") ++ ["sitemap-main.xml", "sitemap.xml"] ∧
    (∀ e ∈ generate_index ("https://dapsiwow.com") ("2025-01-01")
        [⟨"bmi-calculator", "BMI Calculator", "d", "health",
          "/tools/bmi-calculator", "https://dapsiwow.com/tools/bmi-calculator"⟩,
         ⟨"loan-calculator", "Loan Calculator", "d", "finance",
          "/tools/loan-calculator", "https://dapsiwow.com/tools/loan-calculator"⟩],
      e.2 = "2025-01-01") ∧
    splitter_index_entries ("https://dapsiwow.com") ("2025-01-01")
      = [("https://dapsiwow.com" ++ "/" ++ "sitemap-main.xml", "2025-01-01"),
         ("https://dapsiwow.com" ++ "/" ++ "sitemap-finance.xml", "2025-01-01"),
         ("https://dapsiwow.com" ++ "/" ++ "sitemap-health.xml", "2025-01-01"),
         ("https://dapsiwow.com" ++ "/" ++ "sitemap-pdf.xml", "2025-01-01"),
         ("https://dapsiwow.com" ++ "/" ++ "sitemap-text.xml", "2025-01-01")] :=
  sitemap_index_contents ("https://dapsiwow.com") ("2025-01-01")
    [⟨"bmi-calculator", "BMI Calculator", "d", "health",
      "/tools/bmi-calculator", "https://dapsiwow.com/tools/bmi-calculator"⟩,
     ⟨"loan-calculator", "Loan Calculator", "d", "finance",
      "/tools/loan-calculator", "https://dapsiwow.com/tools/loan-calculator"⟩]
    (by decide)

/-- Two sorted permutations of each other with pairwise-distinct names
are equal (the name order is antisymmetric once names are distinct). -/
lemma sorted_nodup_perm_eq : ∀ {l1 l2 : List Tool}, l1.Perm l2 →
    List.Sorted nameLe l1 → List.Sorted nameLe l2 →
    (l1.map Tool.name).Nodup → l1 = l2 := by
  intro l1
  induction l1 with
  | nil =>
    intro l2 h _ _ _
    exact (h.symm.eq_nil).symm
  | cons a t1 ih =>
    intro l2 h s1 s2 hn
    have hn' : (∀ x ∈ t1, ¬ x.name = a.name) ∧ (t1.map Tool.name).Nodup := by
      simpa using hn
    cases l2 with
    | nil => exact absurd h.eq_nil (by simp)
    | cons b t2 =>
      by_cases hab : a = b
      · subst hab
        rw [ih h.cons_inv s1.of_cons s2.of_cons hn'.2]
      · exfalso
        have hamem : a ∈ t2 := by
          have := h.subset (List.mem_cons_self a t1)
          simpa [hab] using this
        have hbmem : b ∈ t1 := by
          have := h.symm.subset (List.mem_cons_self b t2)
          have hba : b ≠ a := fun e => hab e.symm
          simpa [hba] using this
        have h1 : a.name ≤ b.name := (List.sorted_cons.mp s1).1 b hbmem
        have h2 : b.name ≤ a.name := (List.sorted_cons.mp s2).1 a hamem
        exact hn'.1 b hbmem (le_antisymm h2 h1)

/-- C6 (amended): the catalogue-driven generator sorts every category
group by display name before emission, so — as long as display names are
pairwise distinct — the emitted order is independent of the input order;
the splitter, by contrast, emits each group in input order (see the
counterexample). -/
theorem group_get_sorted_and_stable (tools tools' : List Tool) (c : String)
    (hperm : tools.Perm tools') (hnodup : (tools.map Tool.name).Nodup) :
    List.Sorted nameLe (group_get tools c) ∧ group_get tools c = group_get tools' c := by
  refine ⟨List.sorted_insertionSort _ _, ?_⟩
  apply sorted_nodup_perm_eq
  · exact (List.perm_insertionSort _ _).trans
      (((hperm.filter _)).trans (List.perm_insertionSort _ _).symm)
  · exact List.sorted_insertionSort _ _
  · exact List.sorted_insertionSort _ _
  · have hsub : List.Sublist ((tools.filter (fun t => t.category = c)).map Tool.name)
        (tools.map Tool.name) :=
      (List.filter_sublist _).map Tool.name
    have h1 : ((tools.filter (fun t => t.category = c)).map Tool.name).Nodup :=
      hnodup.sublist hsub
    exact (((List.perm_insertionSort nameLe _).map Tool.name).nodup_iff).mpr h1

/-- Instantiation of `group_get_sorted_and_stable` at two permutations
of a two-tool catalogue. -/
theorem group_get_sorted_and_stable_witness :
    List.Sorted nameLe (group_get
      [⟨"loan-calculator", "Loan Calculator", "d", "finance", "/tools/loan-calculator", "u1"⟩,
       ⟨"emi-calculator", "EMI Calculator", "d", "finance", "/tools/emi-calculator", "u2"⟩]
      ("finance")) ∧
    group_get
      [⟨"loan-calculator", "Loan Calculator", "d", "finance", "/tools/loan-calculator", "u1"⟩,
       ⟨"emi-calculator", "EMI Calculator", "d", "finance", "/tools/emi-calculator", "u2"⟩]
      ("finance") =
    group_get
      [⟨"emi-calculator", "EMI Calculator", "d", "finance", "/tools/emi-calculator", "u2"⟩,
       ⟨"loan-calculator", "Loan Calculator", "d", "finance", "/tools/loan-calculator", "u1"⟩]
      ("finance") :=
  group_get_sorted_and_stable
    [⟨"loan-calculator", "Loan Calculator", "d", "finance", "/tools/loan-calculator", "u1"⟩,
     ⟨"emi-calculator", "EMI Calculator", "d", "finance", "/tools/emi-calculator", "u2"⟩]
    [⟨"emi-calculator", "EMI Calculator", "d", "finance", "/tools/emi-calculator", "u2"⟩,
     ⟨"loan-calculator", "Loan Calculator", "d", "finance", "/tools/loan-calculator", "u1"⟩]
    ("finance") (by decide) (by decide)

/-- C3 counterexample: the code's normalizer differs from the claimed
rules both on slash runs of length three (`replace('//','/')` only
halves runs) and on rule order (the `'/tools/'` check runs first, on the
raw href, before lowercasing). -/
theorem normalize_href_cex :
    normalize_href ("/tools///x") ("x") = ("/tools//x") ∧
    normalize_claimed ("/tools///x") ("x") = ("/tools/x") ∧
    normalize_href ("/TOOLS/foo") ("bar") = ("/tools/bar") ∧
    normalize_claimed ("/TOOLS/foo") ("bar") = ("/tools/foo") := by
  decide

/-- C4 counterexample: the normalization pass is not idempotent: a run
of three slashes is left as a double slash by the first pass and
collapsed only by the second. -/
theorem normalize_pass_cex :
    normalize_pass (normalize_pass ("/x///y")) ≠ normalize_pass ("/x///y") ∧
    normalize_pass ("/x///y") = ("/x//y") ∧
    normalize_pass ("/x//y") = ("/x/y") := by
  decide

end DapsiWow

namespace DapsiWow

lemma pyLower_spec (c : Char) :
    pyLower (pyLower c) = pyLower c ∧ ((pyLower c = '/') ↔ (c = '/')) := by
  by_cases h : 'A' ≤ c ∧ c ≤ 'Z'
  · have n1 : 65 ≤ c.toNat := by
      have h1 := h.1
      rw [Char.le_def, UInt32.le_def, BitVec.le_def] at h1
      exact h1
    have n2 : c.toNat ≤ 90 := by
      have h2 := h.2
      rw [Char.le_def, UInt32.le_def, BitVec.le_def] at h2
      exact h2
    have hn : c.toNat = 65 ∨ c.toNat = 66 ∨ c.toNat = 67 ∨ c.toNat = 68 ∨ c.toNat = 69 ∨ c.toNat = 70 ∨ c.toNat = 71 ∨ c.toNat = 72 ∨ c.toNat = 73 ∨ c.toNat = 74 ∨ c.toNat = 75 ∨ c.toNat = 76 ∨ c.toNat = 77 ∨ c.toNat = 78 ∨ c.toNat = 79 ∨ c.toNat = 80 ∨ c.toNat = 81 ∨ c.toNat = 82 ∨ c.toNat = 83 ∨ c.toNat = 84 ∨ c.toNat = 85 ∨ c.toNat = 86 ∨ c.toNat = 87 ∨ c.toNat = 88 ∨ c.toNat = 89 ∨ c.toNat = 90 := by omega
    have hc := Char.ofNat_toNat c
    rcases hn with h'|h'|h'|h'|h'|h'|h'|h'|h'|h'|h'|h'|h'|h'|h'|h'|h'|h'|h'|h'|h'|h'|h'|h'|h'|h' <;> rw [h'] at hc <;> rw [← hc] <;> exact ⟨by decide, by decide⟩
  · constructor
    · simp [pyLower, h]
    · simp [pyLower, h]

lemma pyLower_idem (c : Char) : pyLower (pyLower c) = pyLower c := (pyLower_spec c).1

lemma pyLower_slash (c : Char) : (pyLower c = '/') ↔ (c = '/') := (pyLower_spec c).2

end DapsiWow

namespace DapsiWow

lemma collapsePairs_pair {c d : Char} (r : List Char) (h : c = '/' ∧ d = '/') :
    collapsePairs (c :: d :: r) = '/' :: collapsePairs r := by
  simp [collapsePairs, h]

lemma collapsePairs_ne {c d : Char} (r : List Char) (h : ¬(c = '/' ∧ d = '/')) :
    collapsePairs (c :: d :: r) = c :: collapsePairs (d :: r) := by
  simp [collapsePairs, h]

lemma collapsePairs_head_ne {c : Char} (r : List Char) (hc : c ≠ '/') :
    collapsePairs (c :: r) = c :: collapsePairs r := by
  cases r with
  | nil => rfl
  | cons d r2 => exact collapsePairs_ne r2 (fun hp => hc hp.1)

lemma halve_eq_collapse : ∀ s : List Char,
    halveRunsAux false s = collapsePairs s ∧
    halveRunsAux true s = collapsePairs ('/' :: s) := by
  intro s
  induction s with
  | nil => exact ⟨rfl, rfl⟩
  | cons c r ih =>
    by_cases hc : c = '/'
    · subst hc
      constructor
      · show halveRunsAux true r = collapsePairs ('/' :: r)
        exact ih.2
      · show '/' :: halveRunsAux false r = collapsePairs ('/' :: '/' :: r)
        rw [collapsePairs_pair r ⟨rfl, rfl⟩, ih.1]
    · constructor
      · show (if c = '/' then _ else (if false then ['/', c] else [c]) ++ halveRunsAux false r)
            = collapsePairs (c :: r)
        rw [if_neg hc, collapsePairs_head_ne r hc]
        simp [ih.1]
      · show (if c = '/' then '/' :: halveRunsAux false r
              else (if true then ['/', c] else [c]) ++ halveRunsAux false r)
            = collapsePairs ('/' :: c :: r)
        rw [if_neg hc, collapsePairs_ne r (fun hp => hc hp.2), collapsePairs_head_ne r hc]
        simp [ih.1]

lemma stripTrailingSlashes_append (c : Char) : ∀ s : List Char,
    stripTrailingSlashes (s ++ [c])
      = if c = '/' then stripTrailingSlashes s else s ++ [c] := by
  intro s
  induction s with
  | nil =>
    by_cases hc : c = '/' <;> simp [stripTrailingSlashes, hc]
  | cons a s ih =>
    by_cases hc : c = '/'
    · rw [if_pos hc]
      show (match stripTrailingSlashes (s ++ [c]) with
            | [] => if a = '/' then [] else [a]
            | r => a :: r)
          = stripTrailingSlashes (a :: s)
      rw [ih, if_pos hc]
      rfl
    · rw [if_neg hc]
      show (match stripTrailingSlashes (s ++ [c]) with
            | [] => if a = '/' then [] else [a]
            | r => a :: r)
          = (a :: s) ++ [c]
      rw [ih, if_neg hc]
      cases s <;> rfl

lemma rstrip_eq_strip (s : List Char) : rstripSlashes s = stripTrailingSlashes s := by
  induction s using List.reverseRecOn with
  | nil => rfl
  | append_singleton s c ih =>
    rw [stripTrailingSlashes_append]
    by_cases hc : c = '/'
    · rw [if_pos hc, ← ih]
      simp [rstripSlashes, hc]
    · rw [if_neg hc]
      simp [rstripSlashes, hc]

/-- C3 (amended): the code's normalizer synthesizes `'/tools/<id>'`
first (case-sensitively, on the raw href), then lowercases, then halves
each slash run in one pairwise `'//'`-to-`'/'` pass, then strips every
trailing slash. -/
theorem normalize_href_amended_eq (href tool_id : String) :
    normalize_href href tool_id = normalize_amended href tool_id := by
  show (⟨rstripSlashes (collapsePairs (lowerChars
      (if startsWithTools href.data then href.data else ("/tools/" ++ tool_id).data)))⟩ : String)
    = ⟨stripTrailingSlashes (halveRunsAux false (lowerChars
      (if startsWithTools href.data then href.data else ("/tools/" ++ tool_id).data)))⟩
  rw [rstrip_eq_strip, ← (halve_eq_collapse _).1]

end DapsiWow

namespace DapsiWow

lemma hasTriple_tail : ∀ {c : Char} {l : List Char},
    hasTriple (c :: l) = false → hasTriple l = false := by
  intro c l h
  match l with
  | [] => rfl
  | [d] => rfl
  | d :: e :: r =>
    simp only [hasTriple, Bool.or_eq_false_iff] at h
    exact h.2

lemma hasDouble_tail : ∀ {c : Char} {l : List Char},
    hasDouble (c :: l) = false → hasDouble l = false := by
  intro c l h
  match l with
  | [] => rfl
  | d :: r =>
    simp only [hasDouble, Bool.or_eq_false_iff] at h
    exact h.2

lemma collapse_no_double : ∀ s : List Char,
    hasTriple s = false → hasDouble (collapsePairs s) = false
  | [], _ => rfl
  | [c], _ => rfl
  | c :: d :: r, h => by
    by_cases hcd : c = '/' ∧ d = '/'
    · obtain ⟨hc, hd⟩ := hcd
      subst hc
      subst hd
      rw [collapsePairs_pair r ⟨rfl, rfl⟩]
      cases r with
      | nil => rfl
      | cons e r2 =>
        simp only [hasTriple, Bool.or_eq_false_iff] at h
        have he : e ≠ '/' := by simpa using h.1
        have h2 : hasTriple (e :: r2) = false := hasTriple_tail h.2
        have ihd := collapse_no_double (e :: r2) h2
        rw [collapsePairs_head_ne r2 he] at ihd ⊢
        simp only [hasDouble, Bool.or_eq_false_iff]
        exact ⟨by simp [he], ihd⟩
    · rw [collapsePairs_ne r hcd]
      have ihd := collapse_no_double (d :: r) (hasTriple_tail h)
      by_cases hc : c = '/'
      · have hd : d ≠ '/' := fun hd => hcd ⟨hc, hd⟩
        rw [collapsePairs_head_ne r hd] at ihd ⊢
        simp only [hasDouble, Bool.or_eq_false_iff]
        exact ⟨by simp [hd], ihd⟩
      · cases hx : collapsePairs (d :: r) with
        | nil => rfl
        | cons y ys =>
          rw [hx] at ihd
          simp only [hasDouble, Bool.or_eq_false_iff]
          exact ⟨by simp [hc], ihd⟩
termination_by s => s.length

lemma collapse_id_of_no_double : ∀ t : List Char,
    hasDouble t = false → collapsePairs t = t
  | [], _ => rfl
  | [c], _ => rfl
  | c :: d :: r, h => by
    have hcd : ¬(c = '/' ∧ d = '/') := by
      simp only [hasDouble, Bool.or_eq_false_iff] at h
      rintro ⟨h1, h2⟩
      subst h1
      subst h2
      simpa using h.1
    rw [collapsePairs_ne r hcd, collapse_id_of_no_double (d :: r) (hasDouble_tail h)]
termination_by t => t.length

lemma mem_collapse : ∀ (s : List Char), ∀ x ∈ collapsePairs s, x ∈ s
  | [], _, hx => hx
  | [c], _, hx => hx
  | c :: d :: r, x, hx => by
    by_cases hcd : c = '/' ∧ d = '/'
    · rw [collapsePairs_pair r hcd] at hx
      rcases List.mem_cons.mp hx with rfl | hx
      · rw [hcd.1]
        exact List.mem_cons_self _ _
      · exact List.mem_cons_of_mem _ (List.mem_cons_of_mem _ (mem_collapse r x hx))
    · rw [collapsePairs_ne r hcd] at hx
      rcases List.mem_cons.mp hx with rfl | hx
      · exact List.mem_cons_self _ _
      · exact List.mem_cons_of_mem _ (mem_collapse (d :: r) x hx)
termination_by s => s.length

lemma dropWhile_slash_idem : ∀ l : List Char,
    List.dropWhile (fun c => c = '/') (List.dropWhile (fun c => c = '/') l)
      = List.dropWhile (fun c => c = '/') l := by
  intro l
  induction l with
  | nil => rfl
  | cons a t ih =>
    by_cases h : a = '/'
    · simp only [List.dropWhile_cons]
      simp [h, ih]
    · simp [List.dropWhile_cons, h]

lemma rstrip_idem (u : List Char) :
    rstripSlashes (rstripSlashes u) = rstripSlashes u := by
  unfold rstripSlashes
  rw [List.reverse_reverse, dropWhile_slash_idem]

lemma rstrip_isPrefix (t : List Char) : rstripSlashes t <+: t := by
  have hsuf : List.dropWhile (fun c => c = '/') t.reverse <:+ t.reverse :=
    List.dropWhile_suffix _
  have hpre := List.reverse_prefix.mpr hsuf
  rw [List.reverse_reverse] at hpre
  exact hpre

lemma hasDouble_of_append : ∀ (p q : List Char),
    hasDouble (p ++ q) = false → hasDouble p = false
  | [], _, _ => rfl
  | [c], _, _ => rfl
  | c :: d :: r, q, h => by
    simp only [List.cons_append] at h
    simp only [hasDouble, Bool.or_eq_false_iff] at h ⊢
    refine ⟨h.1, ?_⟩
    have h2 : hasDouble ((d :: r) ++ q) = false := by
      simp only [List.cons_append]
      exact h.2
    exact hasDouble_of_append (d :: r) q h2
termination_by p => p.length

lemma lowerChars_fix : ∀ t : List Char, (∀ x ∈ t, pyLower x = x) → lowerChars t = t := by
  intro t h
  induction t with
  | nil => rfl
  | cons a r ih =>
    show pyLower a :: lowerChars r = a :: r
    rw [h a (List.mem_cons_self _ _), ih (fun x hx => h x (List.mem_cons_of_mem _ hx))]

lemma mem_lower_fixed {s : List Char} {x : Char} (hx : x ∈ lowerChars s) :
    pyLower x = x := by
  rcases List.mem_map.mp hx with ⟨y, _, rfl⟩
  exact pyLower_idem y

lemma hasTriple_lower : ∀ s : List Char, hasTriple (lowerChars s) = hasTriple s
  | [] => rfl
  | [c] => rfl
  | [c, d] => rfl
  | c :: d :: e :: r => by
    show ((decide (pyLower c = '/') && decide (pyLower d = '/') && decide (pyLower e = '/'))
        || hasTriple (lowerChars (d :: e :: r)))
      = hasTriple (c :: d :: e :: r)
    rw [hasTriple_lower (d :: e :: r)]
    simp only [hasTriple]
    simp [pyLower_slash]
termination_by s => s.length

/-- C4 (amended): the normalization pass (lowercase, pairwise slash
collapse, trailing-slash strip) is idempotent on every string with no
run of three or more consecutive slashes. -/
theorem normalize_pass_idem (s : String) (h : hasTriple s.data = false) :
    normalize_pass (normalize_pass s) = normalize_pass s := by
  have hT : hasTriple (lowerChars s.data) = false := by
    rw [hasTriple_lower]
    exact h
  have hD : hasDouble (collapsePairs (lowerChars s.data)) = false :=
    collapse_no_double _ hT
  obtain ⟨q, hq⟩ := rstrip_isPrefix (collapsePairs (lowerChars s.data))
  have hDt : hasDouble (rstripSlashes (collapsePairs (lowerChars s.data))) = false := by
    apply hasDouble_of_append _ q
    rw [hq]
    exact hD
  have hfix : lowerChars (rstripSlashes (collapsePairs (lowerChars s.data)))
      = rstripSlashes (collapsePairs (lowerChars s.data)) := by
    apply lowerChars_fix
    intro x hx
    exact mem_lower_fixed (mem_collapse _ x ((rstrip_isPrefix _).subset hx))
  show (⟨rstripSlashes (collapsePairs (lowerChars
      (rstripSlashes (collapsePairs (lowerChars s.data)))))⟩ : String)
    = ⟨rstripSlashes (collapsePairs (lowerChars s.data))⟩
  rw [hfix, collapse_id_of_no_double _ hDt, rstrip_idem]

/-- Instantiation of `normalize_pass_idem` at a triple-free string. -/
theorem normalize_pass_idem_witness :
    hasTriple (String.data ("/tools//x/")) = false ∧
    normalize_pass (normalize_pass ("/tools//x/")) = normalize_pass ("/tools//x/") :=
  ⟨by decide, normalize_pass_idem ("/tools//x/") (by decide)⟩

end DapsiWow
